import Mathlib

/-!
# Verification of the rlox scanner (src/scanner.rs)

Shallow embedding of the lexical scanner.  Source text is a `List Char`;
the Rust byte offsets `start`/`current` always sit on character
boundaries and every advance moves past exactly one character, so the
embedding indexes characters with `Nat` offsets.  Diagnostics written to
the error stream by `error_at_line` are modelled as an explicit list of
(line, message) pairs carried in the scanner state.
-/

namespace Rlox

/-- Modelled from the spec: the token-kind enumeration lives in
`src/token_type.rs`, which is not present under `src/`; the variants are
those enumerated in spec §3 and used throughout `src/scanner.rs`. -/
inductive TokenType where
  | LeftParen | RightParen | LeftBrace | RightBrace
  | Comma | Dot | Minus | Plus | Semicolon | Slash | Star
  | Bang | BangEqual | Equal | EqualEqual
  | Greater | GreaterEqual | Less | LessEqual
  | Identifier | String | Number
  | And | Class | Else | False | Fun | For | If | Nil | Or
  | Print | Return | Super | This | True | Var | While
  | Eof
deriving DecidableEq, Repr

/-- `token.rs` `Literal`.  The source's `Number(f64)` carries the value of
`text.parse::<f64>()`; a lexeme produced by the number sub-scan (digits,
optionally dot and digits) always parses successfully, and no claim
depends on the floating-point value, so the embedding records the parsed
lexeme text instead of an IEEE double. -/
inductive Literal where
  | String (s : List Char)
  | Number (text : List Char)
deriving DecidableEq, Repr

/-- `token.rs` `Token`. -/
structure Token where
  token_type : TokenType
  lexeme : List Char
  literal : Option Literal
  line : Nat
deriving DecidableEq, Repr

/-- `scanner.rs` `Scanner`, with the diagnostic stream made explicit. -/
structure Scanner where
  source : List Char
  tokens : List Token
  start : Nat
  current : Nat
  line : Nat
  errors : List (Nat × String)
deriving DecidableEq, Repr

/-- `helpers.rs` / `scanner.rs` `is_digit`. -/
def is_digit (c : Char) : Bool := decide ('0' ≤ c ∧ c ≤ '9')

/-- `helpers.rs` / `scanner.rs` `is_alpha`. -/
def is_alpha (c : Char) : Bool :=
  decide (('a' ≤ c ∧ c ≤ 'z') ∨ ('A' ≤ c ∧ c ≤ 'Z') ∨ c = '_')

/-- `helpers.rs` / `scanner.rs` `is_alpha_numeric`. -/
def is_alpha_numeric (c : Char) : Bool := is_alpha c || is_digit c

/-- `scanner.rs` `keyword_type`. -/
def keyword_type (text : List Char) : Option TokenType :=
  if text = "and".toList then some TokenType.And
  else if text = "class".toList then some TokenType.Class
  else if text = "else".toList then some TokenType.Else
  else if text = "false".toList then some TokenType.False
  else if text = "for".toList then some TokenType.For
  else if text = "fun".toList then some TokenType.Fun
  else if text = "if".toList then some TokenType.If
  else if text = "nil".toList then some TokenType.Nil
  else if text = "or".toList then some TokenType.Or
  else if text = "print".toList then some TokenType.Print
  else if text = "return".toList then some TokenType.Return
  else if text = "super".toList then some TokenType.Super
  else if text = "this".toList then some TokenType.This
  else if text = "true".toList then some TokenType.True
  else if text = "var".toList then some TokenType.Var
  else if text = "while".toList then some TokenType.While
  else none

namespace Scanner

/-- `Scanner::new`. -/
def new (source : List Char) : Scanner :=
  ⟨source, [], 0, 0, 1, []⟩

/-- `Scanner::is_at_end`: `current >= source.len()`. -/
def is_at_end (s : Scanner) : Bool := decide (s.source.length ≤ s.current)

/-- `Scanner::peek`: character at `current`, or the null sentinel at end. -/
def peek (s : Scanner) : Char :=
  if s.is_at_end then '\x00' else (s.source.drop s.current).headD '\x00'

/-- `Scanner::peek_next`: checks end of input at `current`, then looks one
character past `current`, with the null sentinel as fallback. -/
def peek_next (s : Scanner) : Char :=
  if s.is_at_end then '\x00'
  else ((s.source.drop s.current).drop 1).headD '\x00'

/-- `Scanner::advanced`: consume and return the character at `current`. -/
def advanced (s : Scanner) : Char × Scanner :=
  ((s.source.drop s.current).headD '\x00', { s with current := s.current + 1 })

/-- `Scanner::matches` (the name `matches` is reserved in Lean). -/
def matches_char (s : Scanner) (expected : Char) : Bool × Scanner :=
  if s.is_at_end then (false, s)
  else if s.peek ≠ expected then (false, s)
  else (true, { s with current := s.current + 1 })

/-- `Scanner::lexeme`: `source[start..current]`. -/
def lexeme (s : Scanner) : List Char :=
  (s.source.drop s.start).take (s.current - s.start)

/-- `Scanner::add_token_opt_literal`. -/
def add_token_opt_literal (s : Scanner) (tt : TokenType) (lit : Option Literal) : Scanner :=
  { s with tokens := s.tokens ++ [⟨tt, s.lexeme, lit, s.line⟩] }

/-- `Scanner::add_token`. -/
def add_token (s : Scanner) (tt : TokenType) : Scanner :=
  s.add_token_opt_literal tt none

/-- `Scanner::add_token_literal`. -/
def add_token_literal (s : Scanner) (tt : TokenType) (lit : Literal) : Scanner :=
  s.add_token_opt_literal tt (some lit)

/-- `Scanner::error_at_line`: one line on the diagnostic stream. -/
def error_at_line (s : Scanner) (message : String) : Scanner :=
  { s with errors := s.errors ++ [(s.line, message)] }

theorem not_at_end_of_digit (s : Scanner) (h : is_digit s.peek = true) :
    s.current < s.source.length := by
  by_contra hc
  have : s.is_at_end = true := by simp [is_at_end]; omega
  simp [peek, this] at h
  exact absurd h (by decide)

theorem not_at_end_of_alpha_numeric (s : Scanner) (h : is_alpha_numeric s.peek = true) :
    s.current < s.source.length := by
  by_contra hc
  have : s.is_at_end = true := by simp [is_at_end]; omega
  simp [peek, this] at h
  exact absurd h (by decide)

/-- The loop of `Scanner::identifier`. -/
def ident_loop (s : Scanner) : Scanner :=
  if h : is_alpha_numeric s.peek then ident_loop s.advanced.2 else s
termination_by s.source.length - s.current
decreasing_by
  have := not_at_end_of_alpha_numeric s h
  simp [advanced]
  omega

/-- `Scanner::identifier`. -/
def identifier (s : Scanner) : Scanner :=
  let s1 := ident_loop s
  let text := s1.lexeme
  s1.add_token ((keyword_type text).getD TokenType.Identifier)

/-- The digit-run loop of `Scanner::number`. -/
def digit_loop (s : Scanner) : Scanner :=
  if h : is_digit s.peek then digit_loop s.advanced.2 else s
termination_by s.source.length - s.current
decreasing_by
  have := not_at_end_of_digit s h
  simp [advanced]
  omega

/-- `Scanner::number`.  The `f64` parse of the lexeme cannot fail on the
digit grammar, so the defensive `Invalid number literal.` branch is
unreachable and the literal records the lexeme text (see `Literal`). -/
def number (s : Scanner) : Scanner :=
  let s1 := digit_loop s
  let s2 :=
    if s1.peek = '.' ∧ is_digit s1.peek_next then digit_loop s1.advanced.2
    else s1
  s2.add_token_literal TokenType.Number (Literal.Number s2.lexeme)

/-- The loop of `Scanner::string`. -/
def string_loop (s : Scanner) : Scanner :=
  if h : s.peek ≠ '\"' ∧ s.is_at_end = false then
    string_loop (if s.peek = '\n' then { s with line := s.line + 1 } else s).advanced.2
  else s
termination_by s.source.length - s.current
decreasing_by
  have : s.current < s.source.length := by
    have := h.2
    simp [is_at_end] at this
    omega
  by_cases hn : s.peek = '\n' <;> simp [hn, advanced] <;> omega

/-- `Scanner::string`. -/
def string (s : Scanner) : Scanner :=
  let s1 := string_loop s
  if s1.is_at_end then s1.error_at_line "Unterminated string."
  else
    let s2 := s1.advanced.2
    let value := (s2.source.drop (s2.start + 1)).take (s2.current - 1 - (s2.start + 1))
    s2.add_token_literal TokenType.String (Literal.String value)

/-- The loop of the `//` line-comment arm of `Scanner::scan_token`. -/
def line_comment_loop (s : Scanner) : Scanner :=
  if h : s.peek ≠ '\n' ∧ s.is_at_end = false then
    line_comment_loop s.advanced.2
  else s
termination_by s.source.length - s.current
decreasing_by
  have := h.2
  simp [is_at_end] at this
  simp [advanced]
  omega

/-- The loop of `Scanner::block_comment`, with the depth counter explicit. -/
def block_comment_loop (allow_nesting : Bool) (depth : Nat) (s : Scanner) : Scanner :=
  if depth = 0 then s
  else if h : s.is_at_end then s.error_at_line "Unterminated block comment."
  else
    if s.peek = '\n' then
      block_comment_loop allow_nesting depth ({ s with line := s.line + 1 }).advanced.2
    else if s.peek = '/' ∧ s.peek_next = '*' then
      if allow_nesting then
        block_comment_loop allow_nesting (depth + 1) s.advanced.2.advanced.2
      else
        block_comment_loop allow_nesting depth s.advanced.2
    else if s.peek = '*' ∧ s.peek_next = '/' then
      block_comment_loop allow_nesting (depth - 1) s.advanced.2.advanced.2
    else
      block_comment_loop allow_nesting depth s.advanced.2
termination_by s.source.length - s.current
decreasing_by
  all_goals simp [is_at_end] at h
  all_goals simp [advanced]
  all_goals omega

/-- `Scanner::block_comment`: depth starts at 1, the opening pair already
consumed. -/
def block_comment (s : Scanner) (allow_nesting : Bool) : Scanner :=
  block_comment_loop allow_nesting 1 s

/-- `Scanner::scan_token`. -/
def scan_token (s : Scanner) : Scanner :=
  let p := s.advanced
  let c := p.1
  let s := p.2
  match c with
  | '(' => s.add_token TokenType.LeftParen
  | ')' => s.add_token TokenType.RightParen
  | '\x7b' => s.add_token TokenType.LeftBrace
  | '\x7d' => s.add_token TokenType.RightBrace
  | ',' => s.add_token TokenType.Comma
  | '.' => s.add_token TokenType.Dot
  | '+' => s.add_token TokenType.Plus
  | '-' => s.add_token TokenType.Minus
  | ';' => s.add_token TokenType.Semicolon
  | '*' => s.add_token TokenType.Star
  | '!' =>
      let m := s.matches_char '='
      m.2.add_token (if m.1 then TokenType.BangEqual else TokenType.Bang)
  | '=' =>
      let m := s.matches_char '='
      m.2.add_token (if m.1 then TokenType.EqualEqual else TokenType.Equal)
  | '<' =>
      let m := s.matches_char '='
      m.2.add_token (if m.1 then TokenType.LessEqual else TokenType.Less)
  | '>' =>
      let m := s.matches_char '='
      m.2.add_token (if m.1 then TokenType.GreaterEqual else TokenType.Greater)
  | '/' =>
      let m := s.matches_char '/'
      if m.1 then m.2.line_comment_loop
      else
        let m2 := m.2.matches_char '*'
        if m2.1 then m2.2.block_comment true
        else m2.2.add_token TokenType.Slash
  | ' ' => s
  | '\r' => s
  | '\t' => s
  | '\n' => { s with line := s.line + 1 }
  | '\"' => s.string
  | _ =>
      if is_digit c then s.number
      else if is_alpha c then s.identifier
      else s.error_at_line "Unexpected character."

theorem matches_char_frame (s : Scanner) (e : Char) :
    (s.matches_char e).2.source = s.source ∧ (s.matches_char e).2.tokens = s.tokens ∧
    (s.matches_char e).2.errors = s.errors ∧ (s.matches_char e).2.start = s.start ∧
    (s.matches_char e).2.line = s.line ∧ s.current ≤ (s.matches_char e).2.current := by
  unfold matches_char
  split
  · simp
  · split <;> simp

theorem digit_loop_frame (s : Scanner) :
    (digit_loop s).source = s.source ∧ (digit_loop s).tokens = s.tokens ∧
    (digit_loop s).errors = s.errors ∧ (digit_loop s).start = s.start ∧
    (digit_loop s).line = s.line ∧ s.current ≤ (digit_loop s).current := by
  induction s using digit_loop.induct with
  | _ s =>
    rw [digit_loop]
    split <;> simp_all [advanced] <;> omega

theorem ident_loop_frame (s : Scanner) :
    (ident_loop s).source = s.source ∧ (ident_loop s).tokens = s.tokens ∧
    (ident_loop s).errors = s.errors ∧ (ident_loop s).start = s.start ∧
    (ident_loop s).line = s.line ∧ s.current ≤ (ident_loop s).current := by
  induction s using ident_loop.induct with
  | _ s =>
    rw [ident_loop]
    split <;> simp_all [advanced] <;> omega

theorem line_comment_loop_frame (s : Scanner) :
    (line_comment_loop s).source = s.source ∧ (line_comment_loop s).tokens = s.tokens ∧
    (line_comment_loop s).errors = s.errors ∧ (line_comment_loop s).start = s.start ∧
    (line_comment_loop s).line = s.line ∧ s.current ≤ (line_comment_loop s).current := by
  induction s using line_comment_loop.induct with
  | _ s =>
    rw [line_comment_loop]
    split <;> simp_all [advanced] <;> omega

theorem string_loop_frame (s : Scanner) :
    (string_loop s).source = s.source ∧ (string_loop s).tokens = s.tokens ∧
    (string_loop s).errors = s.errors ∧ (string_loop s).start = s.start ∧
    s.current ≤ (string_loop s).current := by
  induction s using string_loop.induct with
  | case1 s h ih =>
    rw [string_loop, dif_pos h]
    by_cases hn : s.peek = '\n' <;>
      simp -failIfUnchanged only [hn, if_true, if_false, advanced] at ih ⊢ <;>
      simp -failIfUnchanged at ih ⊢ <;>
      obtain ⟨i1, i2, i3, i4, i5⟩ := ih <;>
      exact ⟨i1, i2, i3, i4, by omega⟩
  | case2 s h =>
    rw [string_loop, dif_neg h]
    simp

theorem block_comment_loop_frame (b : Bool) (d : Nat) (s : Scanner) :
    (block_comment_loop b d s).source = s.source ∧
    (block_comment_loop b d s).tokens = s.tokens ∧
    (block_comment_loop b d s).start = s.start ∧
    s.current ≤ (block_comment_loop b d s).current := by
  induction d, s using block_comment_loop.induct b with
  | case1 s =>
    rw [block_comment_loop]
    simp
  | case2 d s h0 h1 =>
    rw [block_comment_loop, if_neg h0, dif_pos h1]
    simp [error_at_line]
  | case3 d s h0 h1 hc ih =>
    rw [block_comment_loop, if_neg h0, dif_neg h1]
    simp -failIfUnchanged only [hc, if_true, advanced] at ih ⊢
    simp -failIfUnchanged at ih ⊢
    obtain ⟨i1, i2, i3, i4⟩ := ih
    exact ⟨i1, i2, i3, by omega⟩
  | case4 d s h0 h1 hn hc hb ih =>
    rw [block_comment_loop, if_neg h0, dif_neg h1]
    subst hb
    simp -failIfUnchanged only [hc.1, hc.2, advanced] at ih ⊢
    simp -failIfUnchanged at ih ⊢
    obtain ⟨i1, i2, i3, i4⟩ := ih
    exact ⟨i1, i2, i3, by omega⟩
  | case5 d s h0 h1 hn hc hb ih =>
    rw [block_comment_loop, if_neg h0, dif_neg h1]
    simp -failIfUnchanged only [Bool.not_eq_true] at hb
    subst hb
    simp -failIfUnchanged only [hc.1, hc.2, advanced] at ih ⊢
    simp -failIfUnchanged at ih ⊢
    obtain ⟨i1, i2, i3, i4⟩ := ih
    exact ⟨i1, i2, i3, by omega⟩
  | case6 d s h0 h1 hn hc2 hc ih =>
    rw [block_comment_loop, if_neg h0, dif_neg h1]
    simp -failIfUnchanged only [hc.1, hc.2, advanced] at ih ⊢
    simp -failIfUnchanged at ih ⊢
    obtain ⟨i1, i2, i3, i4⟩ := ih
    exact ⟨i1, i2, i3, by omega⟩
  | case7 d s h0 h1 hn hc2 hc6 ih =>
    rw [block_comment_loop, if_neg h0, dif_neg h1]
    simp -failIfUnchanged only [advanced] at ih ⊢
    simp -failIfUnchanged [hn, hc2, hc6] at ih ⊢
    obtain ⟨i1, i2, i3, i4⟩ := ih
    exact ⟨i1, i2, i3, by omega⟩

theorem string_frame (s : Scanner) :
    (Scanner.string s).source = s.source ∧ (Scanner.string s).start = s.start ∧
    s.current ≤ (Scanner.string s).current := by
  obtain ⟨l1, l2, l3, l4, l5⟩ := string_loop_frame s
  unfold Scanner.string
  simp only [advanced, add_token_literal, add_token_opt_literal, error_at_line]
  split
  · exact ⟨l1, l4, l5⟩
  · exact ⟨l1, l4, Nat.le_succ_of_le l5⟩

theorem number_frame (s : Scanner) :
    (number s).source = s.source ∧ (number s).start = s.start ∧
    s.current ≤ (number s).current := by
  obtain ⟨d1, d2, d3, d4, d5, d6⟩ := digit_loop_frame s
  unfold number
  simp only [add_token_literal, add_token_opt_literal, advanced]
  split
  · obtain ⟨e1, e2, e3, e4, e5, e6⟩ := digit_loop_frame (digit_loop s).advanced.2
    exact ⟨e1.trans d1, e4.trans d4, le_trans (le_trans d6 (Nat.le_succ _)) e6⟩
  · exact ⟨d1, d4, d6⟩

theorem identifier_frame (s : Scanner) :
    (identifier s).source = s.source ∧ (identifier s).start = s.start ∧
    s.current ≤ (identifier s).current := by
  obtain ⟨d1, d2, d3, d4, d5, d6⟩ := ident_loop_frame s
  unfold identifier
  simp only [add_token, add_token_opt_literal]
  exact ⟨d1, d4, d6⟩

/-- Every dispatch step consumes at least one character: `scan_token`
strictly advances `current` and leaves the source untouched. -/
theorem scan_token_advance (s : Scanner) :
    (scan_token s).source = s.source ∧ s.current < (scan_token s).current := by
  have hop : ∀ (s1 : Scanner) (e : Char) (t1 t2 : TokenType),
      s1.source = s.source → s.current < s1.current →
      (((s1.matches_char e).2.add_token
          (if (s1.matches_char e).1 then t1 else t2)).source = s.source ∧
        s.current < ((s1.matches_char e).2.add_token
          (if (s1.matches_char e).1 then t1 else t2)).current) := by
    intro s1 e t1 t2 h1 h2
    obtain ⟨m1, m2, m3, m4, m5, m6⟩ := matches_char_frame s1 e
    simp only [add_token, add_token_opt_literal]
    exact ⟨m1.trans h1, lt_of_lt_of_le h2 m6⟩
  unfold scan_token
  simp only [advanced]
  split
  · simp [add_token, add_token_opt_literal]
  · simp [add_token, add_token_opt_literal]
  · simp [add_token, add_token_opt_literal]
  · simp [add_token, add_token_opt_literal]
  · simp [add_token, add_token_opt_literal]
  · simp [add_token, add_token_opt_literal]
  · simp [add_token, add_token_opt_literal]
  · simp [add_token, add_token_opt_literal]
  · simp [add_token, add_token_opt_literal]
  · simp [add_token, add_token_opt_literal]
  · exact hop _ '=' _ _ rfl (Nat.lt_succ_self _)
  · exact hop _ '=' _ _ rfl (Nat.lt_succ_self _)
  · exact hop _ '=' _ _ rfl (Nat.lt_succ_self _)
  · exact hop _ '=' _ _ rfl (Nat.lt_succ_self _)
  · -- the '/' dispatch: line comment, block comment, or Slash
    obtain ⟨m1, m2, m3, m4, m5, m6⟩ :=
      matches_char_frame { s with current := s.current + 1 } '/'
    split
    · obtain ⟨l1, l2, l3, l4, l5, l6⟩ :=
        line_comment_loop_frame ({ s with current := s.current + 1 }.matches_char '/').2
      refine ⟨l1.trans m1, ?_⟩
      have : s.current + 1 ≤ ({ s with current := s.current + 1 }.matches_char '/').2.current := m6
      omega
    · obtain ⟨n1, n2, n3, n4, n5, n6⟩ :=
        matches_char_frame ({ s with current := s.current + 1 }.matches_char '/').2 '*'
      split
      · obtain ⟨b1, b2, b3, b4⟩ := block_comment_loop_frame true 1
          (({ s with current := s.current + 1 }.matches_char '/').2.matches_char '*').2
        simp only [block_comment]
        refine ⟨b1.trans (n1.trans m1), ?_⟩
        have hm6 : s.current + 1 ≤ ({ s with current := s.current + 1 }.matches_char '/').2.current := m6
        omega
      · simp only [add_token, add_token_opt_literal]
        refine ⟨n1.trans m1, ?_⟩
        have hm6 : s.current + 1 ≤ ({ s with current := s.current + 1 }.matches_char '/').2.current := m6
        omega
  · exact ⟨rfl, Nat.lt_succ_self _⟩
  · exact ⟨rfl, Nat.lt_succ_self _⟩
  · exact ⟨rfl, Nat.lt_succ_self _⟩
  · exact ⟨rfl, Nat.lt_succ_self _⟩
  · obtain ⟨f1, f2, f3⟩ := string_frame { s with current := s.current + 1 }
    refine ⟨f1, ?_⟩
    have : s.current + 1 ≤ (Scanner.string { s with current := s.current + 1 }).current := f3
    omega
  · split
    · obtain ⟨f1, f2, f3⟩ := number_frame { s with current := s.current + 1 }
      refine ⟨f1, ?_⟩
      have : s.current + 1 ≤ (number { s with current := s.current + 1 }).current := f3
      omega
    · split
      · obtain ⟨f1, f2, f3⟩ := identifier_frame { s with current := s.current + 1 }
        refine ⟨f1, ?_⟩
        have : s.current + 1 ≤ (identifier { s with current := s.current + 1 }).current := f3
        omega
      · exact ⟨rfl, Nat.lt_succ_self _⟩

/-- The `while !self.is_at_end()` loop of `Scanner::scan_tokens`:
reset `start` to `current`, then dispatch one token. -/
def scan_loop (s : Scanner) : Scanner :=
  if s.current < s.source.length then
    scan_loop (scan_token { s with start := s.current })
  else s
termination_by s.source.length - s.current
decreasing_by
  have h := scan_token_advance { s with start := s.current }
  have h1 : (scan_token { s with start := s.current }).source = s.source := h.1
  have h2 : s.current < (scan_token { s with start := s.current }).current := h.2
  rw [h1]
  omega

/-- `Scanner::scan_tokens`: run the loop, then push the end-marker token. -/
def scan_tokens (s : Scanner) : List Token :=
  (scan_loop s).tokens ++ [⟨TokenType.Eof, [], none, (scan_loop s).line⟩]

end Scanner

/-- The scanner state after the main loop, starting from `Scanner::new`. -/
def scan_state (source : List Char) : Scanner :=
  Scanner.scan_loop (Scanner.new source)

/-- `Scanner::new(source).scan_tokens()`, the scan entry point. -/
def scan (source : List Char) : List Token :=
  (Scanner.new source).scan_tokens

/-- Following the spec's wording: the 1-based line number of position `i`
in `source` is one plus the number of newline characters strictly before
`i`. -/
def line_at (source : List Char) (i : Nat) : Nat :=
  1 + (source.take i).count '\n'

theorem line_at_succ (src : List Char) (i : Nat) :
    line_at src (i + 1) = line_at src i + (if src[i]? = some '\n' then 1 else 0) := by
  unfold line_at
  rw [List.take_succ, List.count_append]
  cases h : src[i]? with
  | none => simp
  | some c =>
    by_cases hc : c = '\n' <;> simp [hc, List.count_singleton]
    omega

theorem line_at_succ_ne (src : List Char) (i : Nat) (h : src[i]? ≠ some '\n') :
    line_at src (i + 1) = line_at src i := by
  rw [line_at_succ, if_neg h]
  omega

theorem line_at_succ_nl (src : List Char) (i : Nat) (h : src[i]? = some '\n') :
    line_at src (i + 1) = line_at src i + 1 := by
  rw [line_at_succ, if_pos h]

theorem line_at_zero (src : List Char) : line_at src 0 = 1 := by
  simp [line_at]

theorem line_at_of_length_le (src : List Char) (i : Nat) (h : src.length ≤ i) :
    line_at src i = 1 + src.count '\n' := by
  unfold line_at
  rw [List.take_of_length_le h]

namespace Scanner

theorem not_at_end_false (s : Scanner) (h : s.current < s.source.length) :
    s.is_at_end = false := by
  simp [is_at_end]
  omega

theorem peek_get? (s : Scanner) (h : s.current < s.source.length) :
    s.source[s.current]? = some s.peek := by
  rw [peek, not_at_end_false s h]
  simp only [Bool.false_eq_true, if_false]
  rw [List.headD_eq_head?, List.head?_drop, List.getElem?_eq_getElem h]
  simp

theorem peek_at_end (s : Scanner) (h : s.source.length ≤ s.current) :
    s.peek = '\x00' := by
  have : s.is_at_end = true := by simp [is_at_end]; omega
  rw [peek, this]
  simp

theorem peek_next_eq_getD (s : Scanner) (h : s.current < s.source.length) :
    s.peek_next = (s.source[s.current + 1]?).getD '\x00' := by
  rw [peek_next, not_at_end_false s h]
  simp only [Bool.false_eq_true, if_false]
  rw [List.drop_drop, List.headD_eq_head?, List.head?_drop]

theorem get?_of_peek_next (s : Scanner) (h : s.current < s.source.length)
    (c : Char) (hc : c ≠ '\x00') (hpn : s.peek_next = c) :
    s.source[s.current + 1]? = some c := by
  rw [peek_next_eq_getD s h] at hpn
  cases hg : s.source[s.current + 1]? with
  | none => rw [hg] at hpn; simp at hpn; exact absurd hpn.symm hc
  | some d => rw [hg] at hpn; simp at hpn; rw [hpn]

theorem get?_current (s : Scanner) (h : s.current < s.source.length) :
    s.source[s.current]? = some ((s.source.drop s.current).headD '\x00') := by
  have := peek_get? s h
  rwa [peek, not_at_end_false s h] at this

/-- `matches_char` either leaves the state alone and reports `false`, or
consumes exactly the expected character. -/
theorem matches_char_cases (s : Scanner) (e : Char) :
    ((s.matches_char e).1 = false ∧ (s.matches_char e).2 = s) ∨
    ((s.matches_char e).1 = true ∧
      (s.matches_char e).2 = { s with current := s.current + 1 } ∧
      s.current < s.source.length ∧ s.source[s.current]? = some e) := by
  unfold matches_char
  split
  · exact Or.inl ⟨rfl, rfl⟩
  · rename_i hend
    split
    · exact Or.inl ⟨rfl, rfl⟩
    · rename_i hpk
      simp only [Decidable.not_not] at hpk
      simp only [Bool.not_eq_true] at hend
      have hlt : s.current < s.source.length := by
        simp [is_at_end] at hend
        omega
      exact Or.inr ⟨rfl, rfl, hlt, by rw [peek_get? s hlt, hpk]⟩

theorem digit_loop_line_at (s : Scanner) :
    line_at s.source (digit_loop s).current = line_at s.source s.current := by
  induction s using digit_loop.induct with
  | case1 s h ih =>
    rw [digit_loop, dif_pos h]
    have hlt := not_at_end_of_digit s h
    have hg := peek_get? s hlt
    have hne : s.source[s.current]? ≠ some '\n' := by
      rw [hg]
      intro he
      simp at he
      rw [he] at h
      exact absurd h (by decide)
    simp only [advanced] at ih ⊢
    rw [ih, line_at_succ_ne _ _ hne]
  | case2 s h =>
    rw [digit_loop, dif_neg h]

theorem ident_loop_line_at (s : Scanner) :
    line_at s.source (ident_loop s).current = line_at s.source s.current := by
  induction s using ident_loop.induct with
  | case1 s h ih =>
    rw [ident_loop, dif_pos h]
    have hlt := not_at_end_of_alpha_numeric s h
    have hg := peek_get? s hlt
    have hne : s.source[s.current]? ≠ some '\n' := by
      rw [hg]
      intro he
      simp at he
      rw [he] at h
      exact absurd h (by decide)
    simp only [advanced] at ih ⊢
    rw [ih, line_at_succ_ne _ _ hne]
  | case2 s h =>
    rw [ident_loop, dif_neg h]

theorem line_comment_loop_line_at (s : Scanner) :
    line_at s.source (line_comment_loop s).current = line_at s.source s.current := by
  induction s using line_comment_loop.induct with
  | case1 s h ih =>
    rw [line_comment_loop, dif_pos h]
    have hlt : s.current < s.source.length := by
      have := h.2
      simp [is_at_end] at this
      omega
    have hg := peek_get? s hlt
    have hne : s.source[s.current]? ≠ some '\n' := by
      rw [hg]
      intro he
      simp at he
      exact h.1 he
    simp only [advanced] at ih ⊢
    rw [ih, line_at_succ_ne _ _ hne]
  | case2 s h =>
    rw [line_comment_loop, dif_neg h]

theorem string_loop_line (s : Scanner) :
    s.line = line_at s.source s.current →
    (string_loop s).line = line_at s.source (string_loop s).current := by
  induction s using string_loop.induct with
  | case1 s h ih =>
    intro hl
    rw [string_loop, dif_pos h]
    have hlt : s.current < s.source.length := by
      have := h.2
      simp [is_at_end] at this
      omega
    have hg := peek_get? s hlt
    by_cases hn : s.peek = '\n'
    · rw [dif_pos hn] at ih
      rw [if_pos hn]
      simp only [advanced] at ih ⊢
      apply ih
      show s.line + 1 = line_at s.source (s.current + 1)
      rw [line_at_succ_nl _ _ (by rw [hg, hn]), hl]
    · rw [dif_neg hn] at ih
      rw [if_neg hn]
      simp only [advanced] at ih ⊢
      apply ih
      show s.line = line_at s.source (s.current + 1)
      rw [line_at_succ_ne _ _ (by rw [hg]; intro he; simp at he; exact hn he), hl]
  | case2 s h =>
    intro hl
    rw [string_loop, dif_neg h]
    exact hl

theorem string_loop_exit (s : Scanner) :
    (string_loop s).peek = '\"' ∨ (string_loop s).is_at_end = true := by
  induction s using string_loop.induct with
  | case1 s h ih =>
    rw [string_loop, dif_pos h]
    exact ih
  | case2 s h =>
    rw [string_loop, dif_neg h]
    by_cases hq : s.peek = '\"'
    · exact Or.inl hq
    · refine Or.inr ?_
      by_contra hb
      exact h ⟨hq, by simpa using hb⟩

theorem block_comment_loop_line (b : Bool) (d : Nat) (s : Scanner) :
    s.line = line_at s.source s.current →
    (block_comment_loop b d s).line = line_at s.source (block_comment_loop b d s).current := by
  induction d, s using block_comment_loop.induct b with
  | case1 s =>
    intro hl
    rw [block_comment_loop]
    simpa using hl
  | case2 d s h0 h1 =>
    intro hl
    rw [block_comment_loop, if_neg h0, dif_pos h1]
    simpa [error_at_line] using hl
  | case3 d s h0 h1 hc ih =>
    intro hl
    rw [block_comment_loop, if_neg h0, dif_neg h1, if_pos hc]
    have hlt : s.current < s.source.length := by
      simp [is_at_end] at h1
      omega
    have hg := peek_get? s hlt
    simp only [advanced] at ih ⊢
    apply ih
    show s.line + 1 = line_at s.source (s.current + 1)
    rw [line_at_succ_nl _ _ (by rw [hg, hc]), hl]
  | case4 d s h0 h1 hn hc hb ih =>
    intro hl
    rw [block_comment_loop, if_neg h0, dif_neg h1, if_neg hn, if_pos hc]
    subst hb
    simp only [if_true]
    have hlt : s.current < s.source.length := by
      simp [is_at_end] at h1
      omega
    have hg1 : s.source[s.current]? = some '/' := by rw [peek_get? s hlt, hc.1]
    have hg2 := get?_of_peek_next s hlt '*' (by decide) hc.2
    simp only [advanced] at ih ⊢
    apply ih
    show s.line = line_at s.source (s.current + 1 + 1)
    rw [line_at_succ_ne _ _ (by rw [hg2]; decide), line_at_succ_ne _ _ (by rw [hg1]; decide), hl]
  | case5 d s h0 h1 hn hc hb ih =>
    intro hl
    rw [block_comment_loop, if_neg h0, dif_neg h1, if_neg hn, if_pos hc]
    simp only [Bool.not_eq_true] at hb
    subst hb
    simp only [Bool.false_eq_true, if_false]
    have hlt : s.current < s.source.length := by
      simp [is_at_end] at h1
      omega
    have hg1 : s.source[s.current]? = some '/' := by rw [peek_get? s hlt, hc.1]
    simp only [advanced] at ih ⊢
    apply ih
    show s.line = line_at s.source (s.current + 1)
    rw [line_at_succ_ne _ _ (by rw [hg1]; decide), hl]
  | case6 d s h0 h1 hn hc2 hc ih =>
    intro hl
    rw [block_comment_loop, if_neg h0, dif_neg h1, if_neg hn, if_neg hc2, if_pos hc]
    have hlt : s.current < s.source.length := by
      simp [is_at_end] at h1
      omega
    have hg1 : s.source[s.current]? = some '*' := by rw [peek_get? s hlt, hc.1]
    have hg2 := get?_of_peek_next s hlt '/' (by decide) hc.2
    simp only [advanced] at ih ⊢
    apply ih
    show s.line = line_at s.source (s.current + 1 + 1)
    rw [line_at_succ_ne _ _ (by rw [hg2]; decide), line_at_succ_ne _ _ (by rw [hg1]; decide), hl]
  | case7 d s h0 h1 hn hc2 hc6 ih =>
    intro hl
    rw [block_comment_loop, if_neg h0, dif_neg h1, if_neg hn, if_neg hc2, if_neg hc6]
    have hlt : s.current < s.source.length := by
      simp [is_at_end] at h1
      omega
    have hg := peek_get? s hlt
    simp only [advanced] at ih ⊢
    apply ih
    show s.line = line_at s.source (s.current + 1)
    rw [line_at_succ_ne _ _ (by rw [hg]; intro he; simp at he; exact hn he), hl]

/-- The block-comment loop leaves the diagnostic stream unchanged, or
appends exactly one `Unterminated block comment.` line. -/
theorem block_comment_loop_errors (b : Bool) (d : Nat) (s : Scanner) :
    (block_comment_loop b d s).errors = s.errors ∨
    (block_comment_loop b d s).errors
      = s.errors ++ [((block_comment_loop b d s).line, "Unterminated block comment.")] := by
  induction d, s using block_comment_loop.induct b with
  | case1 s =>
    rw [block_comment_loop]
    simp
  | case2 d s h0 h1 =>
    rw [block_comment_loop, if_neg h0, dif_pos h1]
    exact Or.inr rfl
  | case3 d s h0 h1 hc ih =>
    rw [block_comment_loop, if_neg h0, dif_neg h1, if_pos hc]
    exact ih
  | case4 d s h0 h1 hn hc hb ih =>
    rw [block_comment_loop, if_neg h0, dif_neg h1, if_neg hn, if_pos hc]
    subst hb
    simpa using ih
  | case5 d s h0 h1 hn hc hb ih =>
    rw [block_comment_loop, if_neg h0, dif_neg h1, if_neg hn, if_pos hc]
    simp only [Bool.not_eq_true] at hb
    subst hb
    simpa using ih
  | case6 d s h0 h1 hn hc2 hc ih =>
    rw [block_comment_loop, if_neg h0, dif_neg h1, if_neg hn, if_neg hc2, if_pos hc]
    exact ih
  | case7 d s h0 h1 hn hc2 hc6 ih =>
    rw [block_comment_loop, if_neg h0, dif_neg h1, if_neg hn, if_neg hc2, if_neg hc6]
    exact ih

/-- Entering the block-comment loop at end of input with positive depth
reports the diagnostic and stops. -/
theorem block_comment_loop_at_end (b : Bool) (d : Nat) (s : Scanner)
    (hd : d ≠ 0) (h : s.is_at_end = true) :
    block_comment_loop b d s = s.error_at_line "Unterminated block comment." := by
  rw [block_comment_loop, if_neg hd, dif_pos h]

/-- Reaching end of input inside a string literal reports the diagnostic
and emits no token. -/
theorem string_unterminated (s : Scanner) (h : (string_loop s).is_at_end = true) :
    Scanner.string s = (string_loop s).error_at_line "Unterminated string." := by
  simp only [Scanner.string]
  rw [if_pos h]

theorem lt_of_peek_ne (s : Scanner) (h : s.peek ≠ '\x00') :
    s.current < s.source.length := by
  by_contra hc
  exact h (peek_at_end s (by omega))

end Scanner

theorem take_own_length {α : Type} (L : List α) (m : Nat) :
    L.take ((L.take m).length) = L.take m := by
  rw [List.length_take]
  rcases le_total m L.length with hm | hm
  · rw [min_eq_left hm]
  · rw [min_eq_right hm, List.take_length, List.take_of_length_le hm]

theorem lexeme_take (s : Scanner) :
    (s.source.drop s.start).take s.lexeme.length = s.lexeme :=
  take_own_length ..

/-- Relation between a token and the source, following the spec's
line-number wording: the lexeme occurs at some offset `i`; a non-String
token records the line of the lexeme's first character, a String token
ends in its closing quote and records that quote's line. -/
def TokenOk (src : List Char) (t : Token) : Prop :=
  ∃ i, (src.drop i).take t.lexeme.length = t.lexeme ∧
    (t.token_type ≠ TokenType.String → t.line = line_at src i) ∧
    (t.token_type = TokenType.String →
      t.lexeme.getLast? = some '\"' ∧ 0 < t.lexeme.length ∧
      t.line = line_at src (i + t.lexeme.length - 1))

theorem keyword_type_ne_string (text : List Char) :
    (keyword_type text).getD TokenType.Identifier ≠ TokenType.String := by
  unfold keyword_type
  by_cases h1 : text = "and".toList
  · rw [if_pos h1]
    decide
  · rw [if_neg h1]
    by_cases h2 : text = "class".toList
    · rw [if_pos h2]
      decide
    · rw [if_neg h2]
      by_cases h3 : text = "else".toList
      · rw [if_pos h3]
        decide
      · rw [if_neg h3]
        by_cases h4 : text = "false".toList
        · rw [if_pos h4]
          decide
        · rw [if_neg h4]
          by_cases h5 : text = "for".toList
          · rw [if_pos h5]
            decide
          · rw [if_neg h5]
            by_cases h6 : text = "fun".toList
            · rw [if_pos h6]
              decide
            · rw [if_neg h6]
              by_cases h7 : text = "if".toList
              · rw [if_pos h7]
                decide
              · rw [if_neg h7]
                by_cases h8 : text = "nil".toList
                · rw [if_pos h8]
                  decide
                · rw [if_neg h8]
                  by_cases h9 : text = "or".toList
                  · rw [if_pos h9]
                    decide
                  · rw [if_neg h9]
                    by_cases h10 : text = "print".toList
                    · rw [if_pos h10]
                      decide
                    · rw [if_neg h10]
                      by_cases h11 : text = "return".toList
                      · rw [if_pos h11]
                        decide
                      · rw [if_neg h11]
                        by_cases h12 : text = "super".toList
                        · rw [if_pos h12]
                          decide
                        · rw [if_neg h12]
                          by_cases h13 : text = "this".toList
                          · rw [if_pos h13]
                            decide
                          · rw [if_neg h13]
                            by_cases h14 : text = "true".toList
                            · rw [if_pos h14]
                              decide
                            · rw [if_neg h14]
                              by_cases h15 : text = "var".toList
                              · rw [if_pos h15]
                                decide
                              · rw [if_neg h15]
                                by_cases h16 : text = "while".toList
                                · rw [if_pos h16]
                                  decide
                                · rw [if_neg h16]
                                  decide

namespace Scanner

theorem add_opt_tokenOk (s : Scanner) (tt : TokenType) (lit : Option Literal)
    (hts : tt ≠ TokenType.String) (hl : s.line = line_at s.source s.start) :
    ∀ t ∈ (s.add_token_opt_literal tt lit).tokens, t ∈ s.tokens ∨ TokenOk s.source t := by
  intro t ht
  simp only [add_token_opt_literal, List.mem_append] at ht
  cases ht with
  | inl h => exact Or.inl h
  | inr h =>
    simp only [List.mem_singleton] at h
    subst h
    refine Or.inr ⟨s.start, lexeme_take s, fun _ => hl, fun hst => absurd hst hts⟩

/-- `Scanner::string` keeps the line counter synchronised with the
newline count and only appends tokens whose recorded line follows the
closing-quote rule. -/
theorem string_inv (s : Scanner)
    (hstart : s.current = s.start + 1)
    (hline : s.line = line_at s.source s.current) :
    (Scanner.string s).line = line_at s.source (Scanner.string s).current ∧
    ∀ t ∈ (Scanner.string s).tokens, t ∈ s.tokens ∨ TokenOk s.source t := by
  obtain ⟨l1, l2, l3, l4, l5⟩ := string_loop_frame s
  have hline2 := string_loop_line s hline
  simp only [Scanner.string]
  split
  · rename_i hend
    refine ⟨by simpa [error_at_line] using hline2, ?_⟩
    intro t ht
    simp only [error_at_line] at ht
    rw [l2] at ht
    exact Or.inl ht
  · rename_i hend
    have hq : (string_loop s).peek = '\"' := (string_loop_exit s).resolve_right hend
    have hlt : (string_loop s).current < s.source.length := by
      have : ¬ (string_loop s).is_at_end = true := hend
      simp [is_at_end] at this
      rw [l1] at this
      omega
    have hgq : s.source[(string_loop s).current]? = some '\"' := by
      have hp := peek_get? (string_loop s) (by rw [l1]; exact hlt)
      rw [hq] at hp
      rw [← l1]
      exact hp
    have hst : s.start + 1 ≤ (string_loop s).current := by
      have := l5
      omega
    have hnn : s.source[(string_loop s).current]? ≠ some '\n' := by
      rw [hgq]
      decide
    constructor
    · show (string_loop s).line = line_at s.source ((string_loop s).current + 1)
      rw [line_at_succ_ne _ _ hnn]
      exact hline2
    · intro t ht
      simp only [advanced, add_token_literal, add_token_opt_literal, List.mem_append] at ht
      cases ht with
      | inl h =>
        rw [l2] at h
        exact Or.inl h
      | inr h =>
        simp only [List.mem_singleton] at h
        subst h
        have hE : ((string_loop s).advanced.2).lexeme
            = (s.source.drop s.start).take ((string_loop s).current + 1 - s.start) := by
          show ((string_loop s).source.drop (string_loop s).start).take
              ((string_loop s).current + 1 - (string_loop s).start)
            = (s.source.drop s.start).take ((string_loop s).current + 1 - s.start)
          rw [l1, l4]
        have hlen : (((string_loop s).advanced.2).lexeme).length
            = (string_loop s).current + 1 - s.start := by
          rw [hE, List.length_take, List.length_drop]
          omega
        refine Or.inr ⟨s.start, ?_, fun hns => absurd rfl hns, fun _ => ⟨?_, ?_, ?_⟩⟩
        · show (s.source.drop s.start).take ((((string_loop s).advanced.2).lexeme).length)
            = ((string_loop s).advanced.2).lexeme
          rw [hE]
          exact take_own_length ..
        · show (((string_loop s).advanced.2).lexeme).getLast? = some '\"'
          rw [List.getLast?_eq_getElem?, hlen, hE]
          rw [List.getElem?_take, if_pos (by omega), List.getElem?_drop]
          rw [show s.start + ((string_loop s).current + 1 - s.start - 1) = (string_loop s).current
            by omega]
          exact hgq
        · show 0 < (((string_loop s).advanced.2).lexeme).length
          rw [hlen]
          omega
        · show (string_loop s).line
            = line_at s.source (s.start + (((string_loop s).advanced.2).lexeme).length - 1)
          rw [hlen]
          rw [show s.start + ((string_loop s).current + 1 - s.start) - 1 = (string_loop s).current
            by omega]
          exact hline2

theorem add_opt_mem (s : Scanner) (tt : TokenType) (lit : Option Literal) :
    ∀ t ∈ (s.add_token_opt_literal tt lit).tokens,
      t ∈ s.tokens ∨ t = ⟨tt, s.lexeme, lit, s.line⟩ := by
  intro t ht
  simp only [add_token_opt_literal, List.mem_append, List.mem_singleton] at ht
  exact ht

theorem tokenOk_mk (src : List Char) (s : Scanner) (tt : TokenType) (lit : Option Literal)
    (hts : tt ≠ TokenType.String) (hsrc : s.source = src)
    (hl : s.line = line_at src s.start) :
    TokenOk src ⟨tt, s.lexeme, lit, s.line⟩ := by
  refine ⟨s.start, ?_, fun _ => hl, fun hst => absurd hst hts⟩
  have := lexeme_take s
  rwa [hsrc] at this

/-- `Scanner::identifier` keeps the line counter in step and records the
line of the lexeme's first character on the emitted token. -/
theorem identifier_inv (s : Scanner)
    (hls : s.line = line_at s.source s.start)
    (hline : s.line = line_at s.source s.current) :
    (identifier s).line = line_at s.source (identifier s).current ∧
    ∀ t ∈ (identifier s).tokens, t ∈ s.tokens ∨ TokenOk s.source t := by
  obtain ⟨d1, d2, d3, d4, d5, d6⟩ := ident_loop_frame s
  have hd := ident_loop_line_at s
  simp only [identifier]
  constructor
  · show (ident_loop s).line = line_at s.source (ident_loop s).current
    rw [d5, hline]
    exact hd.symm
  · intro t ht
    rcases add_opt_mem _ _ _ t ht with hold | rfl
    · exact Or.inl (d2 ▸ hold)
    · refine Or.inr (tokenOk_mk s.source _ _ _ (keyword_type_ne_string _) d1 ?_)
      rw [d5, d4]
      exact hls

/-- `Scanner::number` keeps the line counter in step and records the line
of the lexeme's first character on the emitted token. -/
theorem number_inv (s : Scanner)
    (hls : s.line = line_at s.source s.start)
    (hline : s.line = line_at s.source s.current) :
    (number s).line = line_at s.source (number s).current ∧
    ∀ t ∈ (number s).tokens, t ∈ s.tokens ∨ TokenOk s.source t := by
  obtain ⟨d1, d2, d3, d4, d5, d6⟩ := digit_loop_frame s
  have hd := digit_loop_line_at s
  simp only [number]
  split
  · rename_i hdot
    obtain ⟨e1a, e2a, e3a, e4a, e5a, e6a⟩ := digit_loop_frame ((digit_loop s).advanced.2)
    have e1 : (digit_loop ((digit_loop s).advanced.2)).source = s.source := e1a.trans d1
    have e2 : (digit_loop ((digit_loop s).advanced.2)).tokens = s.tokens := e2a.trans d2
    have e4 : (digit_loop ((digit_loop s).advanced.2)).start = s.start := e4a.trans d4
    have e5 : (digit_loop ((digit_loop s).advanced.2)).line = s.line := e5a.trans d5
    have hlt : (digit_loop s).current < (digit_loop s).source.length :=
      lt_of_peek_ne (digit_loop s) (by rw [hdot.1]; decide)
    have hgdot : s.source[(digit_loop s).current]? = some '.' := by
      rw [← d1]
      rw [peek_get? (digit_loop s) hlt, hdot.1]
    have hstep : line_at s.source ((digit_loop s).current + 1)
        = line_at s.source (digit_loop s).current :=
      line_at_succ_ne _ _ (by rw [hgdot]; decide)
    have he : line_at s.source (digit_loop ((digit_loop s).advanced.2)).current
        = line_at s.source ((digit_loop s).current + 1) := by
      have hx := digit_loop_line_at ((digit_loop s).advanced.2)
      rwa [show ((digit_loop s).advanced.2).source = s.source from d1] at hx
    constructor
    · show (digit_loop ((digit_loop s).advanced.2)).line
          = line_at s.source (digit_loop ((digit_loop s).advanced.2)).current
      rw [e5, hline, he, hstep]
      exact hd.symm
    · intro t ht
      rcases add_opt_mem _ _ _ t ht with hold | rfl
      · exact Or.inl (e2 ▸ hold)
      · refine Or.inr (tokenOk_mk s.source _ _ _ (by decide) e1 ?_)
        rw [e5, e4]
        exact hls
  · constructor
    · show (digit_loop s).line = line_at s.source (digit_loop s).current
      rw [d5, hline]
      exact hd.symm
    · intro t ht
      rcases add_opt_mem _ _ _ t ht with hold | rfl
      · exact Or.inl (d2 ▸ hold)
      · refine Or.inr (tokenOk_mk s.source _ _ _ (by decide) d1 ?_)
        rw [d5, d4]
        exact hls

/-- One dispatch step keeps the line counter equal to the newline count
before `current`, and every token it appends satisfies `TokenOk`. -/
theorem scan_token_inv (s : Scanner)
    (hstart : s.start = s.current)
    (hcur : s.current < s.source.length)
    (hline : s.line = line_at s.source s.current) :
    (scan_token s).line = line_at s.source (scan_token s).current ∧
    ∀ t ∈ (scan_token s).tokens, t ∈ s.tokens ∨ TokenOk s.source t := by
  have hc := get?_current s hcur
  have hsingle : ∀ (tt : TokenType) (lit : Option Literal), tt ≠ TokenType.String →
      s.source[s.current]? ≠ some '\n' →
      (((({s with current := s.current + 1} : Scanner).add_token_opt_literal tt lit)).line
          = line_at s.source ((({s with current := s.current + 1} : Scanner).add_token_opt_literal tt lit)).current
        ∧ ∀ t ∈ ((({s with current := s.current + 1} : Scanner).add_token_opt_literal tt lit)).tokens,
            t ∈ s.tokens ∨ TokenOk s.source t) := by
    intro tt lit hts hnl
    constructor
    · show s.line = line_at s.source (s.current + 1)
      rw [line_at_succ_ne _ _ hnl]
      exact hline
    · intro t ht
      rcases add_opt_mem _ _ _ t ht with hold | rfl
      · exact Or.inl hold
      · refine Or.inr (tokenOk_mk s.source _ _ _ hts rfl ?_)
        show s.line = line_at s.source s.start
        rw [hstart]
        exact hline
  have hdouble : ∀ (tt : TokenType) (lit : Option Literal), tt ≠ TokenType.String →
      s.source[s.current]? ≠ some '\n' → s.source[s.current + 1]? ≠ some '\n' →
      (((({s with current := s.current + 1 + 1} : Scanner).add_token_opt_literal tt lit)).line
          = line_at s.source ((({s with current := s.current + 1 + 1} : Scanner).add_token_opt_literal tt lit)).current
        ∧ ∀ t ∈ ((({s with current := s.current + 1 + 1} : Scanner).add_token_opt_literal tt lit)).tokens,
            t ∈ s.tokens ∨ TokenOk s.source t) := by
    intro tt lit hts hnl1 hnl2
    constructor
    · show s.line = line_at s.source (s.current + 1 + 1)
      rw [line_at_succ_ne _ _ hnl2, line_at_succ_ne _ _ hnl1]
      exact hline
    · intro t ht
      rcases add_opt_mem _ _ _ t ht with hold | rfl
      · exact Or.inl hold
      · refine Or.inr (tokenOk_mk s.source _ _ _ hts rfl ?_)
        show s.line = line_at s.source s.start
        rw [hstart]
        exact hline
  have hop : ∀ (t1 t2 : TokenType), t1 ≠ TokenType.String → t2 ≠ TokenType.String →
      s.source[s.current]? ≠ some '\n' →
      (((({s with current := s.current + 1} : Scanner).matches_char '=').2.add_token (if (({s with current := s.current + 1} : Scanner).matches_char '=').1 then t1 else t2)).line
          = line_at s.source ((({s with current := s.current + 1} : Scanner).matches_char '=').2.add_token (if (({s with current := s.current + 1} : Scanner).matches_char '=').1 then t1 else t2)).current
        ∧ ∀ t ∈ ((({s with current := s.current + 1} : Scanner).matches_char '=').2.add_token (if (({s with current := s.current + 1} : Scanner).matches_char '=').1 then t1 else t2)).tokens,
            t ∈ s.tokens ∨ TokenOk s.source t) := by
    intro t1 t2 ht1 ht2 hnl1
    rcases matches_char_cases ({s with current := s.current + 1} : Scanner) '=' with ⟨hm1, hm2⟩ | ⟨hm1, hm2, hm3, hm4⟩
    · rw [hm1, hm2, if_neg (by decide)]
      exact hsingle t2 none ht2 hnl1
    · rw [hm1, hm2, if_pos rfl]
      refine hdouble t1 none ht1 hnl1 ?_
      show s.source[s.current + 1]? ≠ some '\n'
      have hx : s.source[s.current + 1]? = some '=' := hm4
      rw [hx]
      decide
  unfold scan_token
  simp only [advanced]
  generalize hch : (s.source.drop s.current).headD '\x00' = c
  rw [hch] at hc
  split
  · exact hsingle _ _ (by decide) (by rw [hc]; decide)
  · exact hsingle _ _ (by decide) (by rw [hc]; decide)
  · exact hsingle _ _ (by decide) (by rw [hc]; decide)
  · exact hsingle _ _ (by decide) (by rw [hc]; decide)
  · exact hsingle _ _ (by decide) (by rw [hc]; decide)
  · exact hsingle _ _ (by decide) (by rw [hc]; decide)
  · exact hsingle _ _ (by decide) (by rw [hc]; decide)
  · exact hsingle _ _ (by decide) (by rw [hc]; decide)
  · exact hsingle _ _ (by decide) (by rw [hc]; decide)
  · exact hsingle _ _ (by decide) (by rw [hc]; decide)
  · exact hop _ _ (by decide) (by decide) (by rw [hc]; decide)
  · exact hop _ _ (by decide) (by decide) (by rw [hc]; decide)
  · exact hop _ _ (by decide) (by decide) (by rw [hc]; decide)
  · exact hop _ _ (by decide) (by decide) (by rw [hc]; decide)
  · -- the '/' dispatch
    have hnl1 : s.source[s.current]? ≠ some '\n' := by rw [hc]; decide
    rcases matches_char_cases ({s with current := s.current + 1} : Scanner) '/' with ⟨hm1, hm2⟩ | ⟨hm1, hm2, hm3, hm4⟩
    · rw [hm1, hm2]
      simp only [Bool.false_eq_true, if_false]
      rcases matches_char_cases ({s with current := s.current + 1} : Scanner) '*' with ⟨hn1, hn2⟩ | ⟨hn1, hn2, hn3, hn4⟩
      · rw [hn1, hn2]
        simp only [Bool.false_eq_true, if_false]
        exact hsingle _ _ (by decide) hnl1
      · rw [hn1, hn2]
        simp only [if_true]
        have hnl2 : s.source[s.current + 1]? ≠ some '\n' := by
          have : s.source[s.current + 1]? = some '*' := hn4
          rw [this]
          decide
        have hlX : (({s with current := s.current + 1 + 1} : Scanner)).line
            = line_at (({s with current := s.current + 1 + 1} : Scanner)).source
              (({s with current := s.current + 1 + 1} : Scanner)).current := by
          show s.line = line_at s.source (s.current + 1 + 1)
          rw [line_at_succ_ne _ _ hnl2, line_at_succ_ne _ _ hnl1]
          exact hline
        obtain ⟨b1, b2, b3, b4⟩ :=
          block_comment_loop_frame true 1 ({s with current := s.current + 1 + 1} : Scanner)
        have hbl := block_comment_loop_line true 1 ({s with current := s.current + 1 + 1} : Scanner) hlX
        constructor
        · exact hbl
        · intro t ht
          simp only [block_comment] at ht
          rw [b2] at ht
          exact Or.inl ht
    · rw [hm1, hm2]
      simp only [if_true]
      have hnl2 : s.source[s.current + 1]? ≠ some '\n' := by
        have : s.source[s.current + 1]? = some '/' := hm4
        rw [this]
        decide
      obtain ⟨l1, l2, l3, l4, l5, l6⟩ :=
        line_comment_loop_frame ({s with current := s.current + 1 + 1} : Scanner)
      have hla := line_comment_loop_line_at ({s with current := s.current + 1 + 1} : Scanner)
      constructor
      · show (line_comment_loop ({s with current := s.current + 1 + 1} : Scanner)).line
            = line_at s.source (line_comment_loop ({s with current := s.current + 1 + 1} : Scanner)).current
        rw [l5]
        show s.line = line_at s.source (line_comment_loop ({s with current := s.current + 1 + 1} : Scanner)).current
        have hla2 : line_at s.source (line_comment_loop ({s with current := s.current + 1 + 1} : Scanner)).current
            = line_at s.source (s.current + 1 + 1) := hla
        rw [hla2, line_at_succ_ne _ _ hnl2, line_at_succ_ne _ _ hnl1]
        exact hline
      · intro t ht
        rw [l2] at ht
        exact Or.inl ht
  · refine ⟨?_, fun t ht => Or.inl ht⟩
    show s.line = line_at s.source (s.current + 1)
    rw [line_at_succ_ne _ _ (by rw [hc]; decide)]
    exact hline
  · refine ⟨?_, fun t ht => Or.inl ht⟩
    show s.line = line_at s.source (s.current + 1)
    rw [line_at_succ_ne _ _ (by rw [hc]; decide)]
    exact hline
  · refine ⟨?_, fun t ht => Or.inl ht⟩
    show s.line = line_at s.source (s.current + 1)
    rw [line_at_succ_ne _ _ (by rw [hc]; decide)]
    exact hline
  · refine ⟨?_, fun t ht => Or.inl ht⟩
    show s.line + 1 = line_at s.source (s.current + 1)
    rw [line_at_succ_nl _ _ (by rw [hc]), hline]
  · -- string literal
    refine string_inv ({s with current := s.current + 1} : Scanner) ?_ ?_
    · show s.current + 1 = s.start + 1
      rw [hstart]
    · show s.line = line_at s.source (s.current + 1)
      rw [line_at_succ_ne _ _ (by rw [hc]; decide)]
      exact hline
  · -- default: number, identifier, or unexpected character
    split
    · rename_i hdig
      refine number_inv ({s with current := s.current + 1} : Scanner) ?_ ?_
      · show s.line = line_at s.source s.start
        rw [hstart]
        exact hline
      · show s.line = line_at s.source (s.current + 1)
        have hnl : s.source[s.current]? ≠ some '\n' := by
          rw [hc]
          intro he
          simp only [Option.some.injEq] at he
          rw [he] at hdig
          exact absurd hdig (by decide)
        rw [line_at_succ_ne _ _ hnl]
        exact hline
    · split
      · rename_i hal
        refine identifier_inv ({s with current := s.current + 1} : Scanner) ?_ ?_
        · show s.line = line_at s.source s.start
          rw [hstart]
          exact hline
        · show s.line = line_at s.source (s.current + 1)
          have hnl : s.source[s.current]? ≠ some '\n' := by
            rw [hc]
            intro he
            simp only [Option.some.injEq] at he
            rw [he] at hal
            exact absurd hal (by decide)
          rw [line_at_succ_ne _ _ hnl]
          exact hline
      · refine ⟨?_, fun t ht => Or.inl ht⟩
        show s.line = line_at s.source (s.current + 1)
        have hnl : s.source[s.current]? ≠ some '\n' := by
          rw [hc]
          intro he
          simp only [Option.some.injEq] at he
          subst he
          simp_all
        rw [line_at_succ_ne _ _ hnl]
        exact hline

/-- The main loop preserves the source and runs `current` to (at least)
the end of input. -/
theorem scan_loop_exit (s : Scanner) :
    (scan_loop s).source = s.source ∧ s.source.length ≤ (scan_loop s).current := by
  induction s using scan_loop.induct with
  | case1 s h ih =>
    rw [scan_loop, if_pos h]
    have ha := scan_token_advance { s with start := s.current }
    have h1 : (scan_token { s with start := s.current }).source = s.source := ha.1
    constructor
    · rw [ih.1]
      exact h1
    · have hx := ih.2
      rw [h1] at hx
      exact hx
  | case2 s h =>
    rw [scan_loop, if_neg h]
    exact ⟨rfl, by omega⟩

/-- The main loop preserves the line invariant and `TokenOk` for every
token in the buffer. -/
theorem scan_loop_inv (s : Scanner) :
    s.line = line_at s.source s.current →
    (∀ t ∈ s.tokens, TokenOk s.source t) →
    ((scan_loop s).line = line_at s.source (scan_loop s).current ∧
      ∀ t ∈ (scan_loop s).tokens, TokenOk s.source t) := by
  induction s using scan_loop.induct with
  | case1 s h ih =>
    intro hline htok
    rw [scan_loop, if_pos h]
    have hst := scan_token_inv { s with start := s.current } rfl h hline
    have hsrc : (scan_token { s with start := s.current }).source = s.source :=
      (scan_token_advance { s with start := s.current }).1
    obtain ⟨c1, c2⟩ := ih
      (by rw [hsrc]; exact hst.1)
      (by
        intro t ht
        rw [hsrc]
        rcases hst.2 t ht with hold | hok
        · exact htok t hold
        · exact hok)
    rw [hsrc] at c1 c2
    exact ⟨c1, c2⟩
  | case2 s h =>
    intro hline htok
    rw [scan_loop, if_neg h]
    exact ⟨hline, htok⟩

end Scanner

/-- The scanner state after the pass: line counter synchronised, every
token `TokenOk`, source untouched, cursor at or past end of input. -/
theorem scan_state_inv (source : List Char) :
    (scan_state source).line = line_at source (scan_state source).current ∧
    (∀ t ∈ (scan_state source).tokens, TokenOk source t) ∧
    (scan_state source).source = source ∧
    source.length ≤ (scan_state source).current := by
  have h1 := Scanner.scan_loop_inv (Scanner.new source)
    (by
      show (1 : Nat) = line_at source 0
      rw [line_at_zero])
    (by
      intro t ht
      simp [Scanner.new] at ht)
  have h2 := Scanner.scan_loop_exit (Scanner.new source)
  exact ⟨h1.1, h1.2, h2.1, h2.2⟩

namespace Scanner

/-- The digit run is maximal: the first unconsumed character after
`digit_loop` is not a digit. -/
theorem digit_loop_not_digit (s : Scanner) : ¬ is_digit (digit_loop s).peek = true := by
  induction s using digit_loop.induct with
  | case1 s h ih =>
    rw [digit_loop, dif_pos h]
    exact ih
  | case2 s h =>
    rw [digit_loop, dif_neg h]
    exact h

/-- The identifier run is maximal: the first unconsumed character after
`ident_loop` is not a letter, digit or underscore. -/
theorem ident_loop_not_alpha_numeric (s : Scanner) :
    ¬ is_alpha_numeric (ident_loop s).peek = true := by
  induction s using ident_loop.induct with
  | case1 s h ih =>
    rw [ident_loop, dif_pos h]
    exact ih
  | case2 s h =>
    rw [ident_loop, dif_neg h]
    exact h

end Scanner

/-- C1: for every input the token sequence is non-empty and ends in the
end-marker token (Eof kind, empty lexeme, no literal, the line counter at
end of input); the empty input yields exactly one end-marker token with
line 1. -/
theorem claim_C1 (source : List Char) :
    scan source ≠ [] ∧
    (scan source).getLast? = some ⟨TokenType.Eof, [], none, (scan_state source).line⟩ ∧
    scan [] = [⟨TokenType.Eof, [], none, 1⟩] := by
  refine ⟨?_, ?_, ?_⟩
  · show (scan_state source).tokens
        ++ [(⟨TokenType.Eof, [], none, (scan_state source).line⟩ : Token)] ≠ []
    simp
  · show ((scan_state source).tokens
        ++ [(⟨TokenType.Eof, [], none, (scan_state source).line⟩ : Token)]).getLast?
      = some ⟨TokenType.Eof, [], none, (scan_state source).line⟩
    rw [List.getLast?_concat]
  · simp +decide [scan, scan_state, Scanner.scan_tokens, Scanner.scan_loop, Scanner.scan_token, Scanner.new, Scanner.advanced, Scanner.matches_char, Scanner.add_token, Scanner.add_token_literal, Scanner.add_token_opt_literal, Scanner.lexeme, Scanner.is_at_end, Scanner.peek, Scanner.peek_next, Scanner.number, Scanner.digit_loop, Scanner.identifier, Scanner.ident_loop, Scanner.string, Scanner.string_loop, Scanner.line_comment_loop, Scanner.block_comment, Scanner.block_comment_loop, Scanner.error_at_line, keyword_type, is_digit, is_alpha, is_alpha_numeric, line_at]

/-- C10: the line recorded on the final end-marker token is one plus the
number of newline characters in the whole input. -/
theorem claim_C10 (source : List Char) :
    (scan source).getLast? = some ⟨TokenType.Eof, [], none, 1 + source.count '\n'⟩ := by
  obtain ⟨hl, htok, hsrc, hcur⟩ := scan_state_inv source
  have hline : (scan_state source).line = 1 + source.count '\n' := by
    rw [hl, line_at_of_length_le source _ hcur]
  show ((scan_state source).tokens
      ++ [(⟨TokenType.Eof, [], none, (scan_state source).line⟩ : Token)]).getLast?
    = some ⟨TokenType.Eof, [], none, 1 + source.count '\n'⟩
  rw [List.getLast?_concat, hline]

/-- C2 as stated is false: a String token spanning a newline records the
line of its closing quote, not the line of its first character.  On the
input `"a\nb"` the String token starts at offset 0 on line 1 yet records
line 2. -/
theorem claim_C2_counterexample :
    (scan ("\"a\nb\"".toList)).head?
      = some ⟨TokenType.String, "\"a\nb\"".toList, some (Literal.String "a\nb".toList), 2⟩ ∧
    line_at ("\"a\nb\"".toList) 0 = 1 ∧ (2 : Nat) ≠ 1 := by
  refine ⟨?_, by decide, by decide⟩
  simp +decide [scan, scan_state, Scanner.scan_tokens, Scanner.scan_loop, Scanner.scan_token, Scanner.new, Scanner.advanced, Scanner.matches_char, Scanner.add_token, Scanner.add_token_literal, Scanner.add_token_opt_literal, Scanner.lexeme, Scanner.is_at_end, Scanner.peek, Scanner.peek_next, Scanner.number, Scanner.digit_loop, Scanner.identifier, Scanner.ident_loop, Scanner.string, Scanner.string_loop, Scanner.line_comment_loop, Scanner.block_comment, Scanner.block_comment_loop, Scanner.error_at_line, keyword_type, is_digit, is_alpha, is_alpha_numeric, line_at]

/-- C2 amended: every token of the scan relates to an occurrence of its
lexeme in the source; a non-String token records the 1-based line of the
lexeme's first character, while a String token records the line of the
closing quote (its lexeme's last character). -/
theorem claim_C2_amended (source : List Char) :
    ∀ t ∈ scan source, TokenOk source t := by
  obtain ⟨hl, htok, hsrc, hcur⟩ := scan_state_inv source
  intro t ht
  have ht2 : t ∈ (scan_state source).tokens
      ++ [⟨TokenType.Eof, [], none, (scan_state source).line⟩] := ht
  rw [List.mem_append, List.mem_singleton] at ht2
  cases ht2 with
  | inl h => exact htok t h
  | inr h =>
    subst h
    refine ⟨(scan_state source).current, by simp, fun _ => hl, fun hst => by cases hst⟩

theorem claim_C2_amended_witness :
    TokenOk ("+".toList) ⟨TokenType.Plus, ['+'], none, 1⟩ := by
  refine claim_C2_amended "+".toList _ ?_
  have hscan : scan "+".toList
      = [⟨TokenType.Plus, ['+'], none, 1⟩, ⟨TokenType.Eof, [], none, 1⟩] := by
    simp +decide [scan, scan_state, Scanner.scan_tokens, Scanner.scan_loop, Scanner.scan_token, Scanner.new, Scanner.advanced, Scanner.matches_char, Scanner.add_token, Scanner.add_token_literal, Scanner.add_token_opt_literal, Scanner.lexeme, Scanner.is_at_end, Scanner.peek, Scanner.peek_next, Scanner.number, Scanner.digit_loop, Scanner.identifier, Scanner.ident_loop, Scanner.string, Scanner.string_loop, Scanner.line_comment_loop, Scanner.block_comment, Scanner.block_comment_loop, Scanner.error_at_line, keyword_type, is_digit, is_alpha, is_alpha_numeric, line_at]
  rw [hscan]
  exact List.mem_cons_self ..

/-- C3: the two-line string literal input yields exactly one String token
whose literal is the text strictly between the quotes and whose line is
the closing quote's line (line 2). -/
theorem claim_C3 :
    scan ("\"a\nb\"".toList)
      = [⟨TokenType.String, "\"a\nb\"".toList, some (Literal.String "a\nb".toList), 2⟩,
         ⟨TokenType.Eof, [], none, 2⟩] ∧
    line_at ("\"a\nb\"".toList) 4 = 2 := by
  refine ⟨?_, by decide⟩
  simp +decide [scan, scan_state, Scanner.scan_tokens, Scanner.scan_loop, Scanner.scan_token, Scanner.new, Scanner.advanced, Scanner.matches_char, Scanner.add_token, Scanner.add_token_literal, Scanner.add_token_opt_literal, Scanner.lexeme, Scanner.is_at_end, Scanner.peek, Scanner.peek_next, Scanner.number, Scanner.digit_loop, Scanner.identifier, Scanner.ident_loop, Scanner.string, Scanner.string_loop, Scanner.line_comment_loop, Scanner.block_comment, Scanner.block_comment_loop, Scanner.error_at_line, keyword_type, is_digit, is_alpha, is_alpha_numeric, line_at]

theorem keyword_type_some_mem (text : List Char) (tt : TokenType)
    (h : keyword_type text = some tt) :
    text ∈ ["and".toList, "class".toList, "else".toList, "false".toList, "for".toList, "fun".toList, "if".toList, "nil".toList, "or".toList, "print".toList, "return".toList, "super".toList, "this".toList, "true".toList, "var".toList, "while".toList] := by
  unfold keyword_type at h
  by_cases h1 : text = "and".toList
  · rw [h1]
    decide
  · rw [if_neg h1] at h
    by_cases h2 : text = "class".toList
    · rw [h2]
      decide
    · rw [if_neg h2] at h
      by_cases h3 : text = "else".toList
      · rw [h3]
        decide
      · rw [if_neg h3] at h
        by_cases h4 : text = "false".toList
        · rw [h4]
          decide
        · rw [if_neg h4] at h
          by_cases h5 : text = "for".toList
          · rw [h5]
            decide
          · rw [if_neg h5] at h
            by_cases h6 : text = "fun".toList
            · rw [h6]
              decide
            · rw [if_neg h6] at h
              by_cases h7 : text = "if".toList
              · rw [h7]
                decide
              · rw [if_neg h7] at h
                by_cases h8 : text = "nil".toList
                · rw [h8]
                  decide
                · rw [if_neg h8] at h
                  by_cases h9 : text = "or".toList
                  · rw [h9]
                    decide
                  · rw [if_neg h9] at h
                    by_cases h10 : text = "print".toList
                    · rw [h10]
                      decide
                    · rw [if_neg h10] at h
                      by_cases h11 : text = "return".toList
                      · rw [h11]
                        decide
                      · rw [if_neg h11] at h
                        by_cases h12 : text = "super".toList
                        · rw [h12]
                          decide
                        · rw [if_neg h12] at h
                          by_cases h13 : text = "this".toList
                          · rw [h13]
                            decide
                          · rw [if_neg h13] at h
                            by_cases h14 : text = "true".toList
                            · rw [h14]
                              decide
                            · rw [if_neg h14] at h
                              by_cases h15 : text = "var".toList
                              · rw [h15]
                                decide
                              · rw [if_neg h15] at h
                                by_cases h16 : text = "while".toList
                                · rw [h16]
                                  decide
                                · rw [if_neg h16] at h
                                  exact Option.noConfusion h

/-- C4: the number sub-scan's digit runs are maximal, a dot is consumed
only when followed by a digit, and `123.` scans as a Number token for
`123` followed by a separate Dot token. -/
theorem claim_C4 :
    (∀ s : Scanner, ¬ is_digit (Scanner.digit_loop s).peek = true) ∧
    (∀ s : Scanner, ¬ ((Scanner.digit_loop s).peek = '.'
        ∧ is_digit (Scanner.digit_loop s).peek_next = true) →
      (Scanner.number s).current = (Scanner.digit_loop s).current) ∧
    scan "123.".toList
      = [⟨TokenType.Number, "123".toList, some (Literal.Number "123".toList), 1⟩,
         ⟨TokenType.Dot, ['.'], none, 1⟩, ⟨TokenType.Eof, [], none, 1⟩] := by
  refine ⟨Scanner.digit_loop_not_digit, ?_, ?_⟩
  · intro s hno
    simp only [Scanner.number]
    rw [if_neg hno]
    rfl
  · simp +decide [scan, scan_state, Scanner.scan_tokens, Scanner.scan_loop, Scanner.scan_token, Scanner.new, Scanner.advanced, Scanner.matches_char, Scanner.add_token, Scanner.add_token_literal, Scanner.add_token_opt_literal, Scanner.lexeme, Scanner.is_at_end, Scanner.peek, Scanner.peek_next, Scanner.number, Scanner.digit_loop, Scanner.identifier, Scanner.ident_loop, Scanner.string, Scanner.string_loop, Scanner.line_comment_loop, Scanner.block_comment, Scanner.block_comment_loop, Scanner.error_at_line, keyword_type, is_digit, is_alpha, is_alpha_numeric, line_at]

theorem claim_C4_witness :
    (Scanner.number (Scanner.new "123.".toList)).current
      = (Scanner.digit_loop (Scanner.new "123.".toList)).current := by
  refine claim_C4.2.1 (Scanner.new "123.".toList) ?_
  intro hcon
  have := hcon.2
  rw [show (Scanner.digit_loop (Scanner.new "123.".toList)).peek_next = '\x00' by
    simp +decide [scan, scan_state, Scanner.scan_tokens, Scanner.scan_loop, Scanner.scan_token, Scanner.new, Scanner.advanced, Scanner.matches_char, Scanner.add_token, Scanner.add_token_literal, Scanner.add_token_opt_literal, Scanner.lexeme, Scanner.is_at_end, Scanner.peek, Scanner.peek_next, Scanner.number, Scanner.digit_loop, Scanner.identifier, Scanner.ident_loop, Scanner.string, Scanner.string_loop, Scanner.line_comment_loop, Scanner.block_comment, Scanner.block_comment_loop, Scanner.error_at_line, keyword_type, is_digit, is_alpha, is_alpha_numeric, line_at]] at this
  exact absurd this (by decide)

/-- C5: the block-comment sub-scan nests to arbitrary depth — depth 0
ends the sub-scan, a `/*` pair increments depth, a `*/` pair decrements
it, no token is ever emitted, and the fully nested example is consumed
leaving only the surrounding tokens and no diagnostic. -/
theorem claim_C5 :
    (∀ (b : Bool) (s : Scanner), Scanner.block_comment_loop b 0 s = s) ∧
    (∀ (b : Bool) (d : Nat) (s : Scanner),
      (Scanner.block_comment_loop b d s).tokens = s.tokens) ∧
    (∀ (d : Nat) (s : Scanner), d ≠ 0 → ¬ s.is_at_end = true → s.peek ≠ '\n' →
      s.peek = '/' → s.peek_next = '*' →
      Scanner.block_comment_loop true d s
        = Scanner.block_comment_loop true (d + 1) s.advanced.2.advanced.2) ∧
    (∀ (d : Nat) (s : Scanner), d ≠ 0 → ¬ s.is_at_end = true → s.peek ≠ '\n' →
      ¬ (s.peek = '/' ∧ s.peek_next = '*') → s.peek = '*' → s.peek_next = '/' →
      Scanner.block_comment_loop true d s
        = Scanner.block_comment_loop true (d - 1) s.advanced.2.advanced.2) ∧
    (scan "1 /* outer /* inner */ outer */ 2".toList).map Token.token_type
      = [TokenType.Number, TokenType.Number, TokenType.Eof] ∧
    (scan_state "1 /* outer /* inner */ outer */ 2".toList).errors = [] := by
  refine ⟨?_, ?_, ?_, ?_, ?_, ?_⟩
  · intro b s
    rw [Scanner.block_comment_loop]
    simp
  · intro b d s
    exact (Scanner.block_comment_loop_frame b d s).2.1
  · intro d s hd hend hn h4 h5
    rw [Scanner.block_comment_loop, if_neg hd, dif_neg hend, if_neg hn, if_pos ⟨h4, h5⟩,
      if_pos rfl]
  · intro d s hd hend hn hno h4 h5
    rw [Scanner.block_comment_loop, if_neg hd, dif_neg hend, if_neg hn, if_neg hno,
      if_pos ⟨h4, h5⟩]
  · simp +decide [scan, scan_state, Scanner.scan_tokens, Scanner.scan_loop, Scanner.scan_token, Scanner.new, Scanner.advanced, Scanner.matches_char, Scanner.add_token, Scanner.add_token_literal, Scanner.add_token_opt_literal, Scanner.lexeme, Scanner.is_at_end, Scanner.peek, Scanner.peek_next, Scanner.number, Scanner.digit_loop, Scanner.identifier, Scanner.ident_loop, Scanner.string, Scanner.string_loop, Scanner.line_comment_loop, Scanner.block_comment, Scanner.block_comment_loop, Scanner.error_at_line, keyword_type, is_digit, is_alpha, is_alpha_numeric, line_at]
  · simp +decide [scan, scan_state, Scanner.scan_tokens, Scanner.scan_loop, Scanner.scan_token, Scanner.new, Scanner.advanced, Scanner.matches_char, Scanner.add_token, Scanner.add_token_literal, Scanner.add_token_opt_literal, Scanner.lexeme, Scanner.is_at_end, Scanner.peek, Scanner.peek_next, Scanner.number, Scanner.digit_loop, Scanner.identifier, Scanner.ident_loop, Scanner.string, Scanner.string_loop, Scanner.line_comment_loop, Scanner.block_comment, Scanner.block_comment_loop, Scanner.error_at_line, keyword_type, is_digit, is_alpha, is_alpha_numeric, line_at]

theorem claim_C5_witness :
    Scanner.block_comment_loop true 1 (⟨['/', '*'], [], 0, 0, 1, []⟩ : Scanner)
      = Scanner.block_comment_loop true 2
          ((⟨['/', '*'], [], 0, 0, 1, []⟩ : Scanner)).advanced.2.advanced.2 :=
  claim_C5.2.2.1 1 _ (by decide) (by decide) (by decide) (by decide) (by decide)

/-- C6: hitting end of input inside a string or block comment reports
exactly one diagnostic, emits no token, and the scan still ends in the
end-marker. -/
theorem claim_C6 :
    (∀ s : Scanner, (Scanner.string_loop s).is_at_end = true →
      (Scanner.string s).tokens = s.tokens ∧
      (Scanner.string s).errors
        = s.errors ++ [((Scanner.string_loop s).line, "Unterminated string.")]) ∧
    (∀ (b : Bool) (d : Nat) (s : Scanner), d ≠ 0 → s.is_at_end = true →
      Scanner.block_comment_loop b d s = s.error_at_line "Unterminated block comment.") ∧
    scan "\"abc".toList = [⟨TokenType.Eof, [], none, 1⟩] ∧
    (scan_state "\"abc".toList).errors = [(1, "Unterminated string.")] ∧
    scan "/* abc".toList = [⟨TokenType.Eof, [], none, 1⟩] ∧
    (scan_state "/* abc".toList).errors = [(1, "Unterminated block comment.")] := by
  refine ⟨?_, Scanner.block_comment_loop_at_end, ?_, ?_, ?_, ?_⟩
  · intro s h
    obtain ⟨l1, l2, l3, l4, l5⟩ := Scanner.string_loop_frame s
    rw [Scanner.string_unterminated s h]
    constructor
    · show (Scanner.string_loop s).tokens = s.tokens
      exact l2
    · show (Scanner.string_loop s).errors
          ++ [((Scanner.string_loop s).line, "Unterminated string.")]
        = s.errors ++ [((Scanner.string_loop s).line, "Unterminated string.")]
      rw [l3]
  · simp +decide [scan, scan_state, Scanner.scan_tokens, Scanner.scan_loop, Scanner.scan_token, Scanner.new, Scanner.advanced, Scanner.matches_char, Scanner.add_token, Scanner.add_token_literal, Scanner.add_token_opt_literal, Scanner.lexeme, Scanner.is_at_end, Scanner.peek, Scanner.peek_next, Scanner.number, Scanner.digit_loop, Scanner.identifier, Scanner.ident_loop, Scanner.string, Scanner.string_loop, Scanner.line_comment_loop, Scanner.block_comment, Scanner.block_comment_loop, Scanner.error_at_line, keyword_type, is_digit, is_alpha, is_alpha_numeric, line_at]
  · simp +decide [scan, scan_state, Scanner.scan_tokens, Scanner.scan_loop, Scanner.scan_token, Scanner.new, Scanner.advanced, Scanner.matches_char, Scanner.add_token, Scanner.add_token_literal, Scanner.add_token_opt_literal, Scanner.lexeme, Scanner.is_at_end, Scanner.peek, Scanner.peek_next, Scanner.number, Scanner.digit_loop, Scanner.identifier, Scanner.ident_loop, Scanner.string, Scanner.string_loop, Scanner.line_comment_loop, Scanner.block_comment, Scanner.block_comment_loop, Scanner.error_at_line, keyword_type, is_digit, is_alpha, is_alpha_numeric, line_at]
  · simp +decide [scan, scan_state, Scanner.scan_tokens, Scanner.scan_loop, Scanner.scan_token, Scanner.new, Scanner.advanced, Scanner.matches_char, Scanner.add_token, Scanner.add_token_literal, Scanner.add_token_opt_literal, Scanner.lexeme, Scanner.is_at_end, Scanner.peek, Scanner.peek_next, Scanner.number, Scanner.digit_loop, Scanner.identifier, Scanner.ident_loop, Scanner.string, Scanner.string_loop, Scanner.line_comment_loop, Scanner.block_comment, Scanner.block_comment_loop, Scanner.error_at_line, keyword_type, is_digit, is_alpha, is_alpha_numeric, line_at]
  · simp +decide [scan, scan_state, Scanner.scan_tokens, Scanner.scan_loop, Scanner.scan_token, Scanner.new, Scanner.advanced, Scanner.matches_char, Scanner.add_token, Scanner.add_token_literal, Scanner.add_token_opt_literal, Scanner.lexeme, Scanner.is_at_end, Scanner.peek, Scanner.peek_next, Scanner.number, Scanner.digit_loop, Scanner.identifier, Scanner.ident_loop, Scanner.string, Scanner.string_loop, Scanner.line_comment_loop, Scanner.block_comment, Scanner.block_comment_loop, Scanner.error_at_line, keyword_type, is_digit, is_alpha, is_alpha_numeric, line_at]

theorem claim_C6_witness :
    (Scanner.string (⟨['\"', 'a'], [], 0, 1, 1, []⟩ : Scanner)).tokens = [] ∧
    (Scanner.string (⟨['\"', 'a'], [], 0, 1, 1, []⟩ : Scanner)).errors
      = [((Scanner.string_loop (⟨['\"', 'a'], [], 0, 1, 1, []⟩ : Scanner)).line,
          "Unterminated string.")] := by
  have h := claim_C6.1 (⟨['\"', 'a'], [], 0, 1, 1, []⟩ : Scanner)
    (by simp +decide [scan, scan_state, Scanner.scan_tokens, Scanner.scan_loop, Scanner.scan_token, Scanner.new, Scanner.advanced, Scanner.matches_char, Scanner.add_token, Scanner.add_token_literal, Scanner.add_token_opt_literal, Scanner.lexeme, Scanner.is_at_end, Scanner.peek, Scanner.peek_next, Scanner.number, Scanner.digit_loop, Scanner.identifier, Scanner.ident_loop, Scanner.string, Scanner.string_loop, Scanner.line_comment_loop, Scanner.block_comment, Scanner.block_comment_loop, Scanner.error_at_line, keyword_type, is_digit, is_alpha, is_alpha_numeric, line_at])
  simpa using h

/-- C7: `peek` reads the character at `current` and `peek_next` the one
past it, without consuming; both give the null sentinel at or past end of
input, and with one character left `peek_next` gives the sentinel; the
two boundary inputs scan cleanly. -/
theorem claim_C7 :
    (∀ s : Scanner, s.source.length ≤ s.current → s.peek = '\x00' ∧ s.peek_next = '\x00') ∧
    (∀ s : Scanner, s.current < s.source.length → s.source[s.current]? = some s.peek) ∧
    (∀ s : Scanner, s.current < s.source.length →
      s.peek_next = (s.source[s.current + 1]?).getD '\x00') ∧
    (∀ s : Scanner, s.current + 1 = s.source.length → s.peek_next = '\x00') ∧
    scan "1.5".toList
      = [⟨TokenType.Number, "1.5".toList, some (Literal.Number "1.5".toList), 1⟩,
         ⟨TokenType.Eof, [], none, 1⟩] ∧
    (scan_state "1.5".toList).errors = [] ∧
    scan "/**/".toList = [⟨TokenType.Eof, [], none, 1⟩] ∧
    (scan_state "/**/".toList).errors = [] := by
  refine ⟨?_, Scanner.peek_get?, Scanner.peek_next_eq_getD, ?_, ?_, ?_, ?_, ?_⟩
  · intro s h
    have hend : s.is_at_end = true := by
      simp [Scanner.is_at_end]
      omega
    constructor
    · rw [Scanner.peek, hend]
      simp
    · rw [Scanner.peek_next, hend]
      simp
  · intro s h
    rw [Scanner.peek_next_eq_getD s (by omega)]
    rw [List.getElem?_eq_none (by omega)]
    rfl
  · simp +decide [scan, scan_state, Scanner.scan_tokens, Scanner.scan_loop, Scanner.scan_token, Scanner.new, Scanner.advanced, Scanner.matches_char, Scanner.add_token, Scanner.add_token_literal, Scanner.add_token_opt_literal, Scanner.lexeme, Scanner.is_at_end, Scanner.peek, Scanner.peek_next, Scanner.number, Scanner.digit_loop, Scanner.identifier, Scanner.ident_loop, Scanner.string, Scanner.string_loop, Scanner.line_comment_loop, Scanner.block_comment, Scanner.block_comment_loop, Scanner.error_at_line, keyword_type, is_digit, is_alpha, is_alpha_numeric, line_at]
  · simp +decide [scan, scan_state, Scanner.scan_tokens, Scanner.scan_loop, Scanner.scan_token, Scanner.new, Scanner.advanced, Scanner.matches_char, Scanner.add_token, Scanner.add_token_literal, Scanner.add_token_opt_literal, Scanner.lexeme, Scanner.is_at_end, Scanner.peek, Scanner.peek_next, Scanner.number, Scanner.digit_loop, Scanner.identifier, Scanner.ident_loop, Scanner.string, Scanner.string_loop, Scanner.line_comment_loop, Scanner.block_comment, Scanner.block_comment_loop, Scanner.error_at_line, keyword_type, is_digit, is_alpha, is_alpha_numeric, line_at]
  · simp +decide [scan, scan_state, Scanner.scan_tokens, Scanner.scan_loop, Scanner.scan_token, Scanner.new, Scanner.advanced, Scanner.matches_char, Scanner.add_token, Scanner.add_token_literal, Scanner.add_token_opt_literal, Scanner.lexeme, Scanner.is_at_end, Scanner.peek, Scanner.peek_next, Scanner.number, Scanner.digit_loop, Scanner.identifier, Scanner.ident_loop, Scanner.string, Scanner.string_loop, Scanner.line_comment_loop, Scanner.block_comment, Scanner.block_comment_loop, Scanner.error_at_line, keyword_type, is_digit, is_alpha, is_alpha_numeric, line_at]
  · simp +decide [scan, scan_state, Scanner.scan_tokens, Scanner.scan_loop, Scanner.scan_token, Scanner.new, Scanner.advanced, Scanner.matches_char, Scanner.add_token, Scanner.add_token_literal, Scanner.add_token_opt_literal, Scanner.lexeme, Scanner.is_at_end, Scanner.peek, Scanner.peek_next, Scanner.number, Scanner.digit_loop, Scanner.identifier, Scanner.ident_loop, Scanner.string, Scanner.string_loop, Scanner.line_comment_loop, Scanner.block_comment, Scanner.block_comment_loop, Scanner.error_at_line, keyword_type, is_digit, is_alpha, is_alpha_numeric, line_at]

theorem claim_C7_witness :
    (⟨['a'], [], 0, 0, 1, []⟩ : Scanner).peek_next = '\x00' ∧
    (⟨['a'], [], 0, 1, 1, []⟩ : Scanner).peek = '\x00' :=
  ⟨claim_C7.2.2.2.1 _ (by decide), (claim_C7.1 _ (by decide)).1⟩

/-- C8: scanning always terminates — every dispatch step consumes at
least one character while preserving the source, the main loop runs the
cursor to end of input, and the block-comment sub-scan stops immediately
at end of input. -/
theorem claim_C8 :
    (∀ s : Scanner, s.current < (Scanner.scan_token s).current) ∧
    (∀ s : Scanner, (Scanner.scan_token s).source = s.source) ∧
    (∀ s : Scanner, s.source.length ≤ (Scanner.scan_loop s).current) ∧
    (∀ (b : Bool) (d : Nat) (s : Scanner), d ≠ 0 → s.is_at_end = true →
      Scanner.block_comment_loop b d s = s.error_at_line "Unterminated block comment.") := by
  refine ⟨?_, ?_, ?_, Scanner.block_comment_loop_at_end⟩
  · intro s
    exact (Scanner.scan_token_advance s).2
  · intro s
    exact (Scanner.scan_token_advance s).1
  · intro s
    exact (Scanner.scan_loop_exit s).2

theorem claim_C8_witness :
    Scanner.block_comment_loop true 1 (⟨['a'], [], 0, 1, 1, []⟩ : Scanner)
      = (⟨['a'], [], 0, 1, 1, []⟩ : Scanner).error_at_line "Unterminated block comment." :=
  claim_C8.2.2.2 true 1 _ (by decide) (by decide)

/-- C9: the identifier sub-scan is maximal-munch over letters, digits and
underscores, a lexeme maps to a keyword kind only when it equals one of
the sixteen keywords exactly, and `classy` scans as a single Identifier
token. -/
theorem claim_C9 :
    (∀ s : Scanner, ¬ is_alpha_numeric (Scanner.ident_loop s).peek = true) ∧
    (∀ (text : List Char) (tt : TokenType), keyword_type text = some tt →
      text ∈ ["and".toList, "class".toList, "else".toList, "false".toList, "for".toList, "fun".toList, "if".toList, "nil".toList, "or".toList, "print".toList, "return".toList, "super".toList, "this".toList, "true".toList, "var".toList, "while".toList]) ∧
    scan "classy".toList
      = [⟨TokenType.Identifier, "classy".toList, none, 1⟩, ⟨TokenType.Eof, [], none, 1⟩] ∧
    scan "class".toList
      = [⟨TokenType.Class, "class".toList, none, 1⟩, ⟨TokenType.Eof, [], none, 1⟩] := by
  refine ⟨Scanner.ident_loop_not_alpha_numeric, keyword_type_some_mem, ?_, ?_⟩
  · simp +decide [scan, scan_state, Scanner.scan_tokens, Scanner.scan_loop, Scanner.scan_token, Scanner.new, Scanner.advanced, Scanner.matches_char, Scanner.add_token, Scanner.add_token_literal, Scanner.add_token_opt_literal, Scanner.lexeme, Scanner.is_at_end, Scanner.peek, Scanner.peek_next, Scanner.number, Scanner.digit_loop, Scanner.identifier, Scanner.ident_loop, Scanner.string, Scanner.string_loop, Scanner.line_comment_loop, Scanner.block_comment, Scanner.block_comment_loop, Scanner.error_at_line, keyword_type, is_digit, is_alpha, is_alpha_numeric, line_at]
  · simp +decide [scan, scan_state, Scanner.scan_tokens, Scanner.scan_loop, Scanner.scan_token, Scanner.new, Scanner.advanced, Scanner.matches_char, Scanner.add_token, Scanner.add_token_literal, Scanner.add_token_opt_literal, Scanner.lexeme, Scanner.is_at_end, Scanner.peek, Scanner.peek_next, Scanner.number, Scanner.digit_loop, Scanner.identifier, Scanner.ident_loop, Scanner.string, Scanner.string_loop, Scanner.line_comment_loop, Scanner.block_comment, Scanner.block_comment_loop, Scanner.error_at_line, keyword_type, is_digit, is_alpha, is_alpha_numeric, line_at]

theorem claim_C9_witness :
    "class".toList ∈ ["and".toList, "class".toList, "else".toList, "false".toList, "for".toList, "fun".toList, "if".toList, "nil".toList, "or".toList, "print".toList, "return".toList, "super".toList, "this".toList, "true".toList, "var".toList, "while".toList] :=
  claim_C9.2.1 "class".toList TokenType.Class (by decide)

end Rlox






